import Mathlib

/-!
Verification of the little-free-library catalog server against its
natural-language specification.

The Lean definitions below are shallow embeddings of the Go sources:

* `LFL.Date`, `LFL.Date.CompareTo`, `LFL.Date.ToString`, `LFL.ParseDate`
  embed `src/unnamed/part_011` (the `books` package date code).
* `LFL.GetWords` embeds `GetWords` of `src/pkg/booktypes/ebook.go`
  (Go `regexp.Split` on the pattern `[^a-z0-9_]+` after `strings.ToLower`).
* `LFL.BuildFile` embeds `BuildFile` of `src/pkg/booktypes/ebook.go`.
* `LFL.Update`, `LFL.Get`, `LFL.Query`, `LFL.Count`, `LFL.Stats` embed
  `src/pkg/books/bookdata.go`.
* `LFL.loadFilterLoop` embeds the filter loop of `load` in
  `src/pkg/books/rdfloader.go`.
* `LFL.buildConstraintParam` embeds the constraint branch of
  `buildConstraints` in `src/cmd/library-server/handlers.go`.

Go `int` fields are mapped to `Int` where negative values are representable
and relevant, and to `Nat` for the quantities the program keeps non-negative
(`Limit`, `Page`, list lengths).  Go maps are mapped to association lists
with overwrite-on-insert semantics.  `float64` is mapped to `ℚ` with `none`
standing for NaN (the only float operation in scope is an exact sum of
integers followed by one division).  The random source used by `Query` is
mapped to an oracle supplying, per candidate ordinal, the outcome of the
`Float64` comparison and the value of `Intn` (always reduced mod `Limit`,
which is the contract of `rand.Intn`).
-/

namespace LFL

/-- Date of `src/unnamed/part_011`: year, month, day, each possibly zero.
The Go fields are `int`, hence `Int` here. -/
structure Date where
  Year : Int
  Month : Int
  Day : Int
deriving DecidableEq, Repr

/-- `Date.CompareTo` of `src/unnamed/part_011` lines 48-73, translated
switch-by-switch. -/
def Date.CompareTo (d other : Date) : Int :=
  if d.Year = 0 then
    (if other.Year = 0 then 0 else -1)
  else if d.Month = 0 ∨ d.Day = 0 then
    d.Year - other.Year
  else if other.Year = 0 then
    1
  else if other.Month = 0 ∨ other.Day = 0 then
    d.Year - other.Year
  else if other.Year ≠ d.Year then
    d.Year - other.Year
  else if other.Month ≠ d.Month then
    d.Month - other.Month
  else
    d.Day - other.Day

/-- Sign of an integer, used to state the comparison claims. -/
def sgn (i : Int) : Int :=
  if i < 0 then -1 else if i = 0 then 0 else 1

/-- The sign demanded by claim C8, reading its four clauses
first-match-first (the order in which the claim lists them):
both years zero; `d` zero-year only; either side of partial precision
(a zero month or day) compares by year alone; otherwise lexicographic
(Year, Month, Day). -/
def claimedSignC8 (d e : Date) : Int :=
  if d.Year = 0 ∧ e.Year = 0 then 0
  else if d.Year = 0 then -1
  else if (d.Month = 0 ∨ d.Day = 0) ∨ (e.Month = 0 ∨ e.Day = 0) then sgn (d.Year - e.Year)
  else if d.Year ≠ e.Year then sgn (d.Year - e.Year)
  else if d.Month ≠ e.Month then sgn (d.Month - e.Month)
  else sgn (d.Day - e.Day)

/-- Decimal digit character, `'0'` + k. -/
def digitChar (k : Nat) : Char := Char.ofNat (48 + k)

/-- Fuel-driven digit extraction; the fuel bounds the number of digits, so
any fuel above the value itself is enough. Structural recursion keeps it
kernel-reducible. -/
def natDigitsF : Nat → Nat → List Char
  | 0, _ => []
  | f + 1, n =>
    if n < 10 then [digitChar n]
    else natDigitsF f (n / 10) ++ [digitChar (n % 10)]

/-- The decimal digits of a natural number, most significant first
(the digit part of Go `strconv.Itoa`). -/
def natDigits (n : Nat) : List Char := natDigitsF (n + 1) n

/-- Go `strconv.Itoa` on `int`. -/
def intRepr (i : Int) : String :=
  if i < 0 then "-" ++ String.mk (natDigits i.natAbs) else String.mk (natDigits i.natAbs)

/-- Go `fmt.Sprintf("%0wd", i)`: minimum width `w`, zero-padded between the
sign and the digits. -/
def padZeros (w : Nat) (i : Int) : String :=
  let sign : String := if i < 0 then "-" else ""
  let digits := natDigits i.natAbs
  sign ++ String.mk (List.replicate (w - (sign.length + digits.length)) '0') ++ String.mk digits

/-- `Date.ToString` of `src/unnamed/part_011` lines 31-40. -/
def Date.ToString (d : Date) : String :=
  if d.Year = 0 then "N/A"
  else if d.Month = 0 ∨ d.Day = 0 then intRepr d.Year
  else padZeros 4 d.Year ++ "-" ++ padZeros 2 d.Month ++ "-" ++ padZeros 2 d.Day

/-- A regexp word character (`\b` boundaries in Go's regexp package are
relative to `[0-9A-Za-z_]`). -/
def isWordChar (c : Char) : Bool :=
  c.isDigit || ('A' ≤ c && c ≤ 'Z') || ('a' ≤ c && c ≤ 'z') || c = '_'

/-- A date component separator, the class `[-./]` of `ParseDate`'s pattern. -/
def isSepChar (c : Char) : Bool := c = '.' || c = '/' || c = '-'

/-- Numeric value of a digit character (Go `strconv.Atoi` applied to the
captured digit runs, which are guaranteed to be decimal digits). -/
def digitVal (c : Char) : Nat := c.toNat - 48

/-- `\b` to the right of a match: the next character, if any, is not a word
character. -/
def boundaryOk : List Char → Bool
  | [] => true
  | c :: _ => !isWordChar c

/-- The day part `([0-9]{1,2})\b` of `ParseDate`'s pattern: greedy, so two
digits are preferred; each alternative must be followed by a word boundary.
Returns the day value and the number of characters consumed. -/
def matchDay : List Char → Option (Nat × Nat)
  | [] => none
  | [c1] => if c1.isDigit then some (digitVal c1, 1) else none
  | c1 :: c2 :: rest =>
    if c1.isDigit then
      if c2.isDigit && boundaryOk rest then some (digitVal c1 * 10 + digitVal c2, 2)
      else if boundaryOk (c2 :: rest) then some (digitVal c1, 1)
      else none
    else none

/-- A separator followed by the day part. -/
def matchSepDay (cs : List Char) : Option (Nat × Nat) :=
  match cs with
  | c :: rest => if isSepChar c then (matchDay rest).map (fun p => (p.1, p.2 + 1)) else none
  | [] => none

/-- The month-and-day part `([0-9]{1,2})[-./]([0-9]{1,2})\b`: the month is
greedy (two digits preferred), backtracking to one digit when the
separator-plus-day fails after two. Returns month, day, chars consumed. -/
def matchMonthDay : List Char → Option (Nat × Nat × Nat)
  | [] => none
  | c1 :: rest1 =>
    if c1.isDigit then
      match rest1 with
      | c2 :: rest2 =>
        if c2.isDigit then
          match matchSepDay rest2 with
          | some (d, k) => some (digitVal c1 * 10 + digitVal c2, d, 2 + k)
          | none => (matchSepDay rest1).map (fun p => (digitVal c1, p.1, 1 + p.2))
        else (matchSepDay rest1).map (fun p => (digitVal c1, p.1, 1 + p.2))
      | [] => none
    else none

/-- The optional group `([-./](MM)[-./](DD))?` that may follow the year. -/
def matchTail (cs : List Char) : Option (Nat × Nat × Nat) :=
  match cs with
  | c :: rest =>
    if isSepChar c then (matchMonthDay rest).map (fun p => (p.1, p.2.1, p.2.2 + 1)) else none
  | [] => none

/-- One attempt of `ParseDate`'s pattern at the head of `cs` (the `\b` to
the left is checked by the caller): four digits, then the optional
month/day group, then a right word boundary. Returns the Date and the
number of characters matched. -/
def matchAttempt (cs : List Char) : Option (Date × Nat) :=
  match cs with
  | a :: b :: c :: d :: rest =>
    if a.isDigit && b.isDigit && c.isDigit && d.isDigit then
      let y : Nat := ((digitVal a * 10 + digitVal b) * 10 + digitVal c) * 10 + digitVal d
      match matchTail rest with
      | some (m, dd, k) => some (⟨(y : Int), (m : Int), (dd : Int)⟩, 4 + k)
      | none => if boundaryOk rest then some (⟨(y : Int), 0, 0⟩, 4) else none
    else none
  | _ => none

/-- Leftmost match of `ParseDate`'s pattern: try each start position in
order, a position being eligible when the previous character is not a word
character (the leading `\b`). Returns the Date and the end index of the
match. -/
def findDate : List Char → Bool → Nat → Option (Date × Nat)
  | [], _, _ => none
  | c :: cs, prevWord, pos =>
    match (if prevWord then none else matchAttempt (c :: cs)) with
    | some (d, k) => some (d, pos + k)
    | none => findDate cs (isWordChar c) (pos + 1)

/-- `ParseDate` of `src/unnamed/part_011` lines 95-109 over a character
list: the first `\b([0-9]{4})([-./]([0-9]{1,2})[-./]([0-9]{1,2}))?\b` match
(Go leftmost-first semantics with greedy quantifiers), else the zero date
with index 0. -/
def parseDateChars (cs : List Char) : Date × Nat :=
  match findDate cs false 0 with
  | some (d, endPos) => (d, endPos)
  | none => (⟨0, 0, 0⟩, 0)

/-- `ParseDate` on strings. The returned index counts characters; Go counts
bytes, which agrees on the ASCII strings this development evaluates. -/
def ParseDate (s : String) : Date × Nat := parseDateChars s.data

/-- Modelled from the spec: the current `date` package implementation is
not under `src` (only its tests are); per spec section 4.1 and the `books`
date code of `src/unnamed/part_011`, parsing returns `(Date, consumed)` and
`ParseOnly` keeps only the Date. Used by `BuildFile` for the `Modified`
field, which no claim below depends on. -/
def ParseOnly (s : String) : Date := (ParseDate s).1

/-- A character of the class `[a-z0-9_]` of `wordPat` in
`src/pkg/booktypes/ebook.go` (note: lowercase letters only, unlike the
regexp word-boundary class). -/
def isTokenChar (c : Char) : Bool :=
  ('a' ≤ c && c ≤ 'z') || c.isDigit || c = '_'

/-- Go `regexp.Split` on `[^a-z0-9_]+`, as a state machine: `inPiece = true`
means we are accumulating the current piece (in `acc`, reversed);
`inPiece = false` means we are inside a separator run whose preceding piece
has already been emitted. Splitting emits the substrings between maximal
separator runs, including empty pieces at the ends — exactly Go's
semantics, under which `Split` never returns an empty slice. -/
def splitGo : List Char → Bool → List Char → List (List Char)
  | [], inPiece, acc => if inPiece then [acc.reverse] else [[]]
  | c :: rest, inPiece, acc =>
    if inPiece then
      if isTokenChar c then splitGo rest true (c :: acc)
      else acc.reverse :: splitGo rest false []
    else
      if isTokenChar c then splitGo rest true [c]
      else splitGo rest false []

/-- `GetWords` of `src/pkg/booktypes/ebook.go` lines 23-26:
`wordPat.Split(strings.ToLower(s), -1)`. `strings.ToLower` is modelled as
per-character lowering (they agree on ASCII, and the pattern only retains
ASCII anyway). -/
def GetWords (s : String) : List String :=
  (splitGo (s.data.map Char.toLower) true []).map (fun cs => String.mk cs)

/-- Test that a string is not the empty string, used to state which pieces
of a split are the claim's "non-empty tokens". -/
def nonEmptyStr (w : String) : Bool := !(w == "")

/-- The spec's description of the word extractor (section 4.2): the
non-empty maximal runs of `[a-z0-9_]` characters, in order. `acc` carries
the current run, reversed. Stated from the spec's words for comparison with
`GetWords`, which is translated from the source. -/
def maximalRunsGo : List Char → List Char → List (List Char)
  | [], acc => if acc.isEmpty then [] else [acc.reverse]
  | c :: rest, acc =>
    if isTokenChar c then maximalRunsGo rest (c :: acc)
    else if acc.isEmpty then maximalRunsGo rest []
    else acc.reverse :: maximalRunsGo rest []

/-- The maximal `[a-z0-9_]` runs of a character list. -/
def maximalRuns (cs : List Char) : List (List Char) := maximalRunsGo cs []

/-- Flag stripping of `ConstraintFromText` (`src/pkg/books/constraints.go`
lines 74-86): leading `-` sets exclude, leading `~` sets glob mode, in any
order and multiplicity; returns (exclude, useRegexp, rest of name). -/
def stripFlags : List Char → Bool × Bool × List Char
  | [] => (false, false, [])
  | c :: rest =>
    if c = '-' then (true, (stripFlags rest).2.1, (stripFlags rest).2.2)
    else if c = '~' then ((stripFlags rest).1, true, (stripFlags rest).2.2)
    else (false, false, c :: rest)

/-- The constraint names accepted by the dispatch switch of
`ConstraintFromText` (`src/pkg/books/constraints.go` lines 97-165). -/
def knownName (n : String) : Bool :=
  n = "author" || n = "auth" || n = "illustrator" || n = "ill" ||
  n = "creator" || n = "cre" || n = "title" || n = "subject" || n = "subj" ||
  n = "topic" || n = "top" || n = "type" || n = "typ" || n = "any" ||
  n = "language" || n = "lang" || n = "issued" || n = "iss" ||
  n = "copyright" || n = "cop" || n = "copr"

/-- The success/failure behaviour of `ConstraintFromText`
(`src/pkg/books/constraints.go`): lowercase the name, strip flags, then the
switch errors exactly on an unrecognized name. On success the built functor
is irrelevant to the claims below, so only the exclude flag is returned.
(The other error path, a glob regex that fails to compile, requires glob
mode `~`, which no claim below exercises.) -/
def constraintFromTextOutcome (name _value : String) : Except String Bool :=
  let f := stripFlags (name.data.map Char.toLower)
  if knownName (String.mk f.2.2) then Except.ok f.1
  else Except.error "bad constraint definition"

/-- The `default` branch of `buildConstraints`
(`src/cmd/library-server/handlers.go` lines 130-166) for one (key, value)
query parameter: split the value with the word extractor; zero words is a
bad request; one word builds one constraint; several words build one
constraint per word, AND-combined, any error propagating. Returns the
exclude flag of the built constraint, or the bad-request message. -/
def buildConstraintParam (k v : String) : Except String Bool :=
  match GetWords v with
  | [] => Except.error ("invalid search string: " ++ v)
  | [w] => constraintFromTextOutcome k w
  | ws => ws.foldlM (fun _ w => constraintFromTextOutcome k w) false

/-- `PGFile` as used by `src/pkg/books/bookdata.go` (Stats iterates
`f.Formats`) and `src/pkg/books/rdfloader.go`: a downloadable variant with
its list of MIME format strings. -/
structure PGFile where
  Location : String
  Formats : List String
  FileSize : Int
  Modified : Date
  BookID : String
deriving DecidableEq, Repr

/-- `CompType` of `src/pkg/booktypes/ebook.go`: standalone compression of a
file. `CompNone` is the zero value. -/
inductive CompType where
  | CompNone : CompType
  | CompZip : CompType
deriving DecidableEq, Repr

/-- The `booktypes.PGFile` revision that `BuildFile`
(`src/pkg/booktypes/ebook.go` lines 92-99) constructs: a single base
`Format` plus a `Comp` compression tag. -/
structure PGFileB where
  Location : String
  Format : String
  Comp : CompType
  FileSize : Int
  Modified : Date
  BookID : String
deriving DecidableEq, Repr

/-- `BuildFile` of `src/pkg/booktypes/ebook.go` lines 104-123. The loop
over `formats` sets `Comp` on the ZIP sentinel and otherwise overwrites
`Format`. The Bool component models whether the `log.Printf` diagnostic
("suspect formats") fires: `len(formats) >= 2 && f.Comp == 0`. -/
def BuildFile (id loc : String) (formats : List String) (siz : Int)
    (modified : String) : PGFileB × Bool :=
  let f0 : PGFileB :=
    { Location := loc, Format := "", Comp := CompType.CompNone,
      FileSize := siz, Modified := ParseOnly modified, BookID := id }
  let f := formats.foldl (fun f fmt =>
    if fmt = "application/zip" then { f with Comp := CompType.CompZip }
    else { f with Format := fmt }) f0
  (f, decide (2 ≤ formats.length) && decide (f.Comp = CompType.CompNone))

/-- `EBook` of `src/pkg/booktypes/ebook.go`, restricted to the fields read
by the store, query, statistics and loader operations under verification
(`ID`, `Language`, `Type` (spelled `Type'`, a Lean keyword), `Files`, `Words`, plus the text fields the word
index is built from); the remaining fields influence none of the claims,
which treat constraint functors as opaque predicates. `Words` models the
book's word stringset (`Stats` only reads its `Length`). -/
structure EBook where
  ID : String
  Title : String
  Language : String
  Subjects : List String
  Issued : Date
  Type' : String
  Files : List PGFile
  Words : List String
deriving DecidableEq, Repr

/-- The zero `booktypes.EBook` value, returned by `Get` on a miss. -/
def emptyEBook : EBook :=
  { ID := "", Title := "", Language := "", Subjects := [], Issued := ⟨0, 0, 0⟩,
    Type' := "", Files := [], Words := [] }

/-- `nilFunctor` of `src/pkg/books/constraintFunctors.go`: always false. -/
def nilFunctor : EBook → Bool := fun _ => false

/-- `Or` of `src/pkg/books/constraintFunctors.go`: empty input yields
`nilFunctor`, otherwise short-circuit disjunction. -/
def Or (cfs : List (EBook → Bool)) : EBook → Bool :=
  match cfs with
  | [] => nilFunctor
  | _ => fun eb => cfs.any (fun cf => cf eb)

/-- `And` of `src/pkg/books/constraintFunctors.go`: empty input yields
`nilFunctor`, otherwise short-circuit conjunction. -/
def And (cfs : List (EBook → Bool)) : EBook → Bool :=
  match cfs with
  | [] => nilFunctor
  | _ => fun eb => cfs.all (fun cf => cf eb)

/-- `ConstraintSpec` of `src/pkg/books/constraintSpec.go`. `Limit` and
`Page` are Go ints that every constructor of the program keeps positive
resp. non-negative (`NewConstraintSpec` defaults 25/0, the request adapter
rejects `limit ≤ 0` and `page < 0`), hence `Nat`. -/
structure ConstraintSpec where
  Includes : List (EBook → Bool)
  IncludeCombiner : List (EBook → Bool) → EBook → Bool
  Excludes : List (EBook → Bool)
  ExcludeCombiner : List (EBook → Bool) → EBook → Bool
  Limit : Nat
  Page : Nat
  Random : Bool

/-- `NewConstraintSpec` of `src/pkg/books/constraintSpec.go`. -/
def NewConstraintSpec : ConstraintSpec :=
  { Includes := [], IncludeCombiner := And, Excludes := [], ExcludeCombiner := Or,
    Limit := 25, Page := 0, Random := false }

/-- The random source of `Query`: per candidate ordinal `m`, `keep m`
models the comparison `rand.Float64() < Limit/m` and `index m` models
`rand.Intn(Limit)` (whose contract limits it to `[0, Limit)`, enforced here
by reducing mod `Limit`). -/
structure RandOracle where
  keep : Nat → Bool
  index : Nat → Nat

/-- The candidate test of `Query` and `Count`
(`src/pkg/books/bookdata.go`): the two nested ifs "empty include list means
include all; empty exclude list means exclude none". -/
def bookMatches (spec : ConstraintSpec) (bk : EBook) : Bool :=
  (spec.Includes.isEmpty || spec.IncludeCombiner spec.Includes bk) &&
  (spec.Excludes.isEmpty || !spec.ExcludeCombiner spec.Excludes bk)

/-- The loop of `Query` (`src/pkg/books/bookdata.go` lines 136-162) with
state (remaining books, matchCount, replace, result): break when the result
is full and Random is unset; otherwise set `replace` once the result is
full; skip early-page candidates (`matchCount < Limit*Page`, evaluated
after the increment) in paged mode; in replacement mode conditionally
overwrite a random slot; otherwise append. -/
def queryLoop (spec : ConstraintSpec) (o : RandOracle) :
    List EBook → Nat → Bool → List EBook → List EBook
  | [], _, _, result => result
  | bk :: rest, matchCount, replace, result =>
    if spec.Limit ≤ result.length ∧ spec.Random = false then result
    else
      let replace1 := if spec.Limit ≤ result.length then true else replace
      if bookMatches spec bk then
        if spec.Random = false ∧ matchCount + 1 < spec.Limit * spec.Page then
          queryLoop spec o rest (matchCount + 1) replace1 result
        else if replace1 then
          if o.keep (matchCount + 1) then
            queryLoop spec o rest (matchCount + 1) replace1
              (result.set (o.index (matchCount + 1) % spec.Limit) bk)
          else queryLoop spec o rest (matchCount + 1) replace1 result
        else queryLoop spec o rest (matchCount + 1) replace1 (result ++ [bk])
      else queryLoop spec o rest matchCount replace1 result

/-- `Query` of `src/pkg/books/bookdata.go` lines 120-164. -/
def Query (books : List EBook) (spec : ConstraintSpec) (o : RandOracle) : List EBook :=
  queryLoop spec o books 0 false []

/-- `Count` of `src/pkg/books/bookdata.go` lines 168-184. -/
def Count (books : List EBook) (spec : ConstraintSpec) : Nat :=
  books.foldl (fun mc bk => if bookMatches spec bk then mc + 1 else mc) 0

/-- Overwriting insert of a Go `map[string]int`, on an association list. -/
def mapSet : List (String × Nat) → String → Nat → List (String × Nat)
  | [], k, v => [(k, v)]
  | (k2, v2) :: rest, k, v =>
    if k2 = k then (k, v) :: rest else (k2, v2) :: mapSet rest k v

/-- `BookData` of `src/pkg/books/bookdata.go`: the book sequence and the
ID-to-index map (the RWMutex only orders concurrent access and has no
sequential content). -/
structure BookData where
  books : List EBook
  bookIDs : List (String × Nat)

/-- `NewBookData` of `src/pkg/books/bookdata.go`. -/
def NewBookData : BookData := ⟨[], []⟩

/-- The loop of `updateIDs`: `for i := start; i < len(books); i++`
assigning `bookIDs[books[i].ID] = i`. -/
def setIDs : List (String × Nat) → List EBook → Nat → List (String × Nat)
  | m, [], _ => m
  | m, bk :: rest, i => setIDs (mapSet m bk.ID i) rest (i + 1)

/-- `updateIDs` of `src/pkg/books/bookdata.go` lines 29-33. Note: it only
writes entries for the current books, never clearing the map. -/
def updateIDs (b : BookData) (start : Nat) : BookData :=
  { b with bookIDs := setIDs b.bookIDs (b.books.drop start) start }

/-- `Update` of `src/pkg/books/bookdata.go` lines 45-50: replace the book
slice, then `updateIDs(0)` over the existing map. -/
def Update (b : BookData) (bs : List EBook) : BookData :=
  updateIDs { b with books := bs } 0

/-- `Get` of `src/pkg/books/bookdata.go` lines 61-68. The result is
`none` when the indexed access `b.books[ix]` would panic (index out of
range); otherwise `some (book, found)` as in Go. -/
def Get (b : BookData) (id : String) : Option (EBook × Bool) :=
  match b.bookIDs.lookup id with
  | some ix => (b.books[ix]?).map (fun bk => (bk, true))
  | none => some (emptyEBook, false)

/-- `StatsData` of `src/pkg/books/bookdata.go`. `AvgIndexSize` is a Go
`float64`; the arithmetic in scope (a sum of integers divided once) is
exact in `ℚ`, with `none` standing for the NaN produced by `0/0`. -/
structure StatsData where
  TotalBooks : Nat
  TotalFiles : Nat
  AvgIndexSize : Option ℚ
  Languages : List (String × Nat)
  Formats : List (String × Nat)
  Types : List (String × Nat)
deriving DecidableEq, Repr

/-- Go `m[k]++` on an association list. -/
def bump : List (String × Nat) → String → List (String × Nat)
  | [], k => [(k, 1)]
  | (k2, v2) :: rest, k =>
    if k2 = k then (k2, v2 + 1) :: rest else (k2, v2) :: bump rest k

/-- IEEE division as used by `Stats`: division by zero does not yield a
rational (0/0 is NaN, x/0 is an infinity), modelled as `none`. -/
def floatDiv (a b : ℚ) : Option ℚ := if b = 0 then none else some (a / b)

/-- The loop body of `Stats` (`src/pkg/books/bookdata.go` lines 92-104):
accumulate the summed word-index size and the per-book counters. -/
def statsStep (p : ℚ × StatsData) (bk : EBook) : ℚ × StatsData :=
  ( p.1 + (bk.Words.length : ℚ),
    { p.2 with
        TotalBooks := p.2.TotalBooks + 1,
        Languages := bump p.2.Languages bk.Language,
        Types := bump p.2.Types bk.Type',
        TotalFiles := p.2.TotalFiles + (bk.Files.map (fun f => f.Formats.length)).sum,
        Formats := bk.Files.foldl (fun fm f => f.Formats.foldl bump fm) p.2.Formats } )

/-- `Stats` of `src/pkg/books/bookdata.go` lines 82-107: single pass, then
`AvgIndexSize = totalWordsInIndex / float64(TotalBooks)` with no guard for
an empty store. -/
def Stats (books : List EBook) : StatsData :=
  let acc := books.foldl statsStep (0, ⟨0, 0, none, [], [], []⟩)
  { acc.2 with AvgIndexSize := floatDiv acc.1 (acc.2.TotalBooks : ℚ) }

/-- The per-ebook filter loop of `load` (`src/pkg/books/rdfloader.go`
lines 234-253), translated statement-for-statement: for each ebook filter,
a failing filter only `continue`s to the next filter; a passing filter
appends the surviving files (those passing every file filter) to
`et.Files` — which persists across filter iterations — and emits `et` when
its file list is non-empty. -/
def loadFilterLoop (pgFileFilters : List (PGFile → Bool)) (formats : List PGFile) :
    List (EBook → Bool) → EBook → List EBook
  | [], _ => []
  | filt :: rest, et =>
    if filt et then
      let surviving := formats.filter (fun f => pgFileFilters.all (fun ff => ff f))
      let et1 := { et with Files := et.Files ++ surviving }
      (if et1.Files.isEmpty then [] else [et1]) ++ loadFilterLoop pgFileFilters formats rest et1
    else loadFilterLoop pgFileFilters formats rest et

/-- `load` of `src/pkg/books/rdfloader.go` lines 223-256 after XML
decoding: each record is an already-converted `asEBook` result (whose
`Files` start empty) together with its converted `asFile` list. -/
def load (ebookFilters : List (EBook → Bool)) (pgFileFilters : List (PGFile → Bool))
    (items : List (EBook × List PGFile)) : List EBook :=
  items.foldl (fun acc p => acc ++ loadFilterLoop pgFileFilters p.2 ebookFilters p.1) []

/-- Concrete books for evaluating the store and query loops. -/
def bookA : EBook := { emptyEBook with ID := "a" }

def bookB : EBook := { emptyEBook with ID := "b" }

def bookC : EBook := { emptyEBook with ID := "c" }

/-- A book with three indexed words, for evaluating `Stats`. -/
def bookW : EBook := { emptyEBook with ID := "w", Words := ["wonder", "women", "play"] }

/-- An unconstrained paged query: include all, exclude none. -/
def pagedSpec (lim pg : Nat) : ConstraintSpec :=
  { Includes := [], IncludeCombiner := And, Excludes := [], ExcludeCombiner := Or,
    Limit := lim, Page := pg, Random := false }

/-- An oracle for runs where the random path is unused. -/
def trivialOracle : RandOracle := ⟨fun _ => false, fun _ => 0⟩

/-- The store after `Update([a, b])` followed by `Update([c])`. -/
def storeAfterUpdate : BookData := Update (Update NewBookData [bookA, bookB]) [bookC]

/-- A concrete file record for evaluating the loader's filter loop. -/
def fileF : PGFile :=
  { Location := "f", Formats := ["text/plain"], FileSize := 0, Modified := ⟨0, 0, 0⟩,
    BookID := "x" }

set_option maxHeartbeats 1000000 in
/-- C8 (amended): for Dates whose `Year` fields are non-negative (as all
Dates produced by this program's parser are), the sign of `CompareTo d e`
follows the claim's rules read in order: zero when both years are zero;
negative when `d` has zero year and `e` does not; determined by year alone
when either side has a zero month or zero day; otherwise determined by
lexicographic (Year, Month, Day) comparison. -/
theorem compareTo_sign_agrees (d e : Date)
    (hd : 0 ≤ d.Year) (he : 0 ≤ e.Year) :
    sgn (Date.CompareTo d e) = claimedSignC8 d e := by
  by_cases h1 : d.Year = 0 <;> by_cases h2 : e.Year = 0 <;>
    by_cases h3 : d.Month = 0 ∨ d.Day = 0 <;> by_cases h4 : e.Month = 0 ∨ e.Day = 0 <;>
    simp only [Date.CompareTo, claimedSignC8, sgn, h1, h2, h3, h4, if_true, if_false,
      true_or, or_true, false_or, or_false, true_and, and_true, false_and, and_false,
      if_pos, not_true, not_false_iff] <;>
    split_ifs <;> omega

/-- C8 (counterexample): for the Go `int` Date fields the claim as stated
fails: with `d = ⟨-1, 1, 1⟩` and `e = ⟨0, 1, 1⟩` both sides have nonzero
month and day, so the claim demands the sign of the lexicographic
comparison (negative), but `CompareTo` returns `1` because it sends every
date with a nonzero year above every zero-year date. -/
theorem compareTo_sign_counterexample :
    sgn (Date.CompareTo ⟨-1, 1, 1⟩ ⟨0, 1, 1⟩) ≠ claimedSignC8 ⟨-1, 1, 1⟩ ⟨0, 1, 1⟩ := by
  decide

/-- Witness for `compareTo_sign_agrees` at a concrete pair of dates. -/
theorem compareTo_sign_agrees_witness :
    sgn (Date.CompareTo ⟨2020, 2, 3⟩ ⟨2019, 12, 31⟩) =
      claimedSignC8 ⟨2020, 2, 3⟩ ⟨2019, 12, 31⟩ :=
  compareTo_sign_agrees ⟨2020, 2, 3⟩ ⟨2019, 12, 31⟩ (by decide) (by decide)

lemma natDigitsF_congr (n : Nat) : ∀ f f' : Nat, n < f → n < f' →
    natDigitsF f n = natDigitsF f' n := by
  induction n using Nat.strong_induction_on with
  | _ n ih =>
    intro f f' hf hf'
    match f, f' with
    | fp + 1, fq + 1 =>
      simp only [natDigitsF]
      by_cases h : n < 10
      · simp [h]
      · simp only [if_neg h]
        rw [ih (n / 10) (by omega) fp fq (by omega) (by omega)]

lemma natDigits_small (n : Nat) (h : n < 10) : natDigits n = [digitChar n] := by
  simp [natDigits, natDigitsF, h]

lemma natDigits_step (n : Nat) (h : 10 ≤ n) :
    natDigits n = natDigits (n / 10) ++ [digitChar (n % 10)] := by
  have h1 : natDigitsF (n + 1) n = natDigitsF n (n / 10) ++ [digitChar (n % 10)] := by
    simp only [natDigitsF]
    rw [if_neg (by omega)]
  rw [natDigits, natDigits, h1,
    natDigitsF_congr (n / 10) n (n / 10 + 1) (by omega) (by omega)]

lemma natDigits_two (n : Nat) (h1 : 10 ≤ n) (h2 : n ≤ 99) :
    natDigits n = [digitChar (n / 10), digitChar (n % 10)] := by
  rw [natDigits_step n h1, natDigits_small (n / 10) (by omega)]
  rfl

lemma natDigits_four (n : Nat) (h1 : 1000 ≤ n) (h2 : n ≤ 9999) :
    natDigits n = [digitChar (n / 1000), digitChar (n / 100 % 10),
      digitChar (n / 10 % 10), digitChar (n % 10)] := by
  rw [natDigits_step n (by omega),
      natDigits_step (n / 10) (by omega),
      natDigits_step (n / 10 / 10) (by omega),
      natDigits_small (n / 10 / 10 / 10) (by omega)]
  have e1 : n / 10 / 10 = n / 100 := by omega
  have e2 : n / 10 / 10 / 10 = n / 1000 := by omega
  rw [e1] at *
  rw [e2]
  simp [e1]

lemma digitFacts : ∀ k, k < 10 → ((digitChar k).isDigit = true ∧
    isWordChar (digitChar k) = true ∧ isSepChar (digitChar k) = false ∧
    digitVal (digitChar k) = k) := by decide

lemma digitChar_isDigit {k : Nat} (h : k < 10) : (digitChar k).isDigit = true :=
  (digitFacts k h).1

lemma digitVal_digitChar {k : Nat} (h : k < 10) : digitVal (digitChar k) = k :=
  (digitFacts k h).2.2.2

lemma parse_year_only (a b c d : Nat) (ha : a < 10) (hb : b < 10) (hc : c < 10)
    (hd : d < 10) :
    parseDateChars [digitChar a, digitChar b, digitChar c, digitChar d] =
      (⟨(((a * 10 + b) * 10 + c) * 10 + d : Nat), 0, 0⟩, 4) := by
  simp [parseDateChars, findDate, matchAttempt, matchTail, boundaryOk,
    digitChar_isDigit ha, digitChar_isDigit hb, digitChar_isDigit hc, digitChar_isDigit hd,
    digitVal_digitChar ha, digitVal_digitChar hb, digitVal_digitChar hc, digitVal_digitChar hd]

lemma parse_full (a b c d m1 m2 d1 d2 : Nat) (ha : a < 10) (hb : b < 10)
    (hc : c < 10) (hd : d < 10) (hm1 : m1 < 10) (hm2 : m2 < 10)
    (hd1 : d1 < 10) (hd2 : d2 < 10) :
    parseDateChars [digitChar a, digitChar b, digitChar c, digitChar d, '-',
        digitChar m1, digitChar m2, '-', digitChar d1, digitChar d2] =
      (⟨(((a * 10 + b) * 10 + c) * 10 + d : Nat),
        (m1 * 10 + m2 : Nat), (d1 * 10 + d2 : Nat)⟩, 10) := by
  simp [parseDateChars, findDate, matchAttempt, matchTail, matchMonthDay,
    matchSepDay, matchDay, boundaryOk, isSepChar,
    digitChar_isDigit ha, digitChar_isDigit hb, digitChar_isDigit hc, digitChar_isDigit hd,
    digitChar_isDigit hm1, digitChar_isDigit hm2, digitChar_isDigit hd1, digitChar_isDigit hd2,
    digitVal_digitChar ha, digitVal_digitChar hb, digitVal_digitChar hc, digitVal_digitChar hd,
    digitVal_digitChar hm1, digitVal_digitChar hm2, digitVal_digitChar hd1,
    digitVal_digitChar hd2]

lemma digitChar_zero : digitChar 0 = '0' := by decide

lemma pad2_data (m : Int) (h1 : 1 ≤ m) (h2 : m ≤ 99) :
    (padZeros 2 m).data = [digitChar (m.natAbs / 10), digitChar (m.natAbs % 10)] := by
  have hm : ¬ m < 0 := by omega
  by_cases hsmall : m.natAbs < 10
  · have e1 : m.natAbs / 10 = 0 := by omega
    have e2 : m.natAbs % 10 = m.natAbs := by omega
    rw [e1, e2, digitChar_zero]
    simp [padZeros, hm, natDigits_small m.natAbs hsmall]
  · simp [padZeros, hm, natDigits_two m.natAbs (by omega) (by omega)]

lemma pad4_data (y : Int) (h1 : 1000 ≤ y) (h2 : y ≤ 9999) :
    (padZeros 4 y).data = [digitChar (y.natAbs / 1000), digitChar (y.natAbs / 100 % 10),
      digitChar (y.natAbs / 10 % 10), digitChar (y.natAbs % 10)] := by
  have hm : ¬ y < 0 := by omega
  simp [padZeros, hm, natDigits_four y.natAbs (by omega) (by omega)]

lemma str_data_append (s t : String) : (s ++ t).data = s.data ++ t.data := rfl

/-- C9 (counterexample): the claim fails on Dates the parser produces from
years with leading zeros. `ParseDate "0042"` yields the Date `⟨42, 0, 0⟩`
(so that Date is in the image of the parser), its `ToString` renders `"42"`,
and re-parsing `"42"` finds no four-digit year, yielding the zero Date
instead of the original. -/
theorem parse_toString_counterexample :
    (ParseDate "0042").1 = ⟨42, 0, 0⟩ ∧
    (ParseDate (Date.ToString (ParseDate "0042").1)).1 ≠ (ParseDate "0042").1 := by
  decide

/-- C9 (amended): parse-render-reparse is the identity on every Date whose
Year is zero (with zero month and day) or has four significant digits
(1000-9999) with Month and Day either both zero or both nonzero (and, as
the parser guarantees, at most two digits each). Dates parsed from
leading-zero years such as `"0042"`, or with exactly one of Month/Day zero
such as `"2005-0-18"`, do not round-trip. -/
theorem parse_toString_roundtrip (d : Date)
    (h : d = ⟨0, 0, 0⟩ ∨ (1000 ≤ d.Year ∧ d.Year ≤ 9999 ∧
      ((d.Month = 0 ∧ d.Day = 0) ∨
       (1 ≤ d.Month ∧ d.Month ≤ 99 ∧ 1 ≤ d.Day ∧ d.Day ≤ 99)))) :
    (ParseDate (Date.ToString d)).1 = d := by
  obtain ⟨y, m, dd⟩ := d
  rcases h with h | ⟨hy1, hy2, hmd⟩
  · rw [h]
    decide
  · simp only at hy1 hy2 hmd
    obtain ⟨yn, rfl⟩ : ∃ n : Nat, y = (n : Int) := ⟨y.toNat, by omega⟩
    rcases hmd with ⟨hm, hd⟩ | ⟨hm1, hm2, hd1, hd2⟩
    · subst hm hd
      rw [Date.ToString]
      rw [if_neg (by simp; omega), if_pos (Or.inl rfl)]
      simp only [intRepr]
      rw [if_neg (by omega)]
      show (parseDateChars (natDigits (Int.natAbs yn))).1 = _
      simp only [Int.natAbs_ofNat]
      rw [natDigits_four yn (by omega) (by omega)]
      rw [parse_year_only _ _ _ _ (by omega) (by omega) (by omega) (by omega)]
      have hA : ((yn / 1000 * 10 + yn / 100 % 10) * 10 + yn / 10 % 10) * 10 + yn % 10 = yn := by
        omega
      rw [hA]
    · obtain ⟨mn, rfl⟩ : ∃ n : Nat, m = (n : Int) := ⟨m.toNat, by omega⟩
      obtain ⟨dn, rfl⟩ : ∃ n : Nat, dd = (n : Int) := ⟨dd.toNat, by omega⟩
      rw [Date.ToString]
      rw [if_neg (by simp; omega), if_neg (by simp; omega)]
      show (parseDateChars _).1 = _
      rw [str_data_append, str_data_append, str_data_append, str_data_append]
      rw [pad4_data _ hy1 hy2, pad2_data _ hm1 hm2, pad2_data _ hd1 hd2]
      simp only [Int.natAbs_ofNat, List.append_assoc, List.cons_append, List.nil_append]
      show (parseDateChars [digitChar (yn / 1000), digitChar (yn / 100 % 10),
        digitChar (yn / 10 % 10), digitChar (yn % 10), '-',
        digitChar (mn / 10), digitChar (mn % 10), '-',
        digitChar (dn / 10), digitChar (dn % 10)]).1 = _
      rw [parse_full _ _ _ _ _ _ _ _ (by omega) (by omega) (by omega) (by omega)
        (by omega) (by omega) (by omega) (by omega)]
      have hA : ((yn / 1000 * 10 + yn / 100 % 10) * 10 + yn / 10 % 10) * 10 + yn % 10 = yn := by
        omega
      have hM : mn / 10 * 10 + mn % 10 = mn := by omega
      have hD : dn / 10 * 10 + dn % 10 = dn := by omega
      rw [hA, hM, hD]

/-- Witness for `parse_toString_roundtrip` at the concrete date 2005-07-18. -/
theorem parse_toString_roundtrip_witness :
    (ParseDate (Date.ToString ⟨2005, 7, 18⟩)).1 = (⟨2005, 7, 18⟩ : Date) :=
  parse_toString_roundtrip ⟨2005, 7, 18⟩ (by decide)

lemma splitGo_ne_nil : ∀ (cs : List Char) (mode : Bool) (acc : List Char),
    splitGo cs mode acc ≠ [] := by
  intro cs
  induction cs with
  | nil =>
    intro mode acc
    cases mode <;> simp [splitGo]
  | cons c rest ih =>
    intro mode acc
    cases mode <;> simp only [splitGo] <;> split_ifs <;> simp [ih]

lemma splitGo_filter (cs : List Char) :
    (∀ acc, (splitGo cs true acc).filter (fun l => !l.isEmpty) = maximalRunsGo cs acc) ∧
    (splitGo cs false []).filter (fun l => !l.isEmpty) = maximalRunsGo cs [] := by
  induction cs with
  | nil =>
    constructor
    · intro acc
      by_cases h : acc.isEmpty
      · have : acc = [] := by simpa [List.isEmpty_iff] using h
        subst this
        simp [splitGo, maximalRunsGo]
      · have : acc ≠ [] := by simpa [List.isEmpty_iff] using h
        simp [splitGo, maximalRunsGo, h, this]
    · simp [splitGo, maximalRunsGo]
  | cons c rest ih =>
    constructor
    · intro acc
      by_cases hc : isTokenChar c
      · simp [splitGo, maximalRunsGo, hc, ih.1]
      · by_cases ha : acc.isEmpty
        · have : acc = [] := by simpa [List.isEmpty_iff] using ha
          subst this
          simp [splitGo, maximalRunsGo, hc, ih.2]
        · have hne : acc ≠ [] := by simpa [List.isEmpty_iff] using ha
          simp [splitGo, maximalRunsGo, hc, ha, ih.2, hne]
    · by_cases hc : isTokenChar c
      · simp [splitGo, maximalRunsGo, hc, ih.1]
      · simp [splitGo, maximalRunsGo, hc, ih.2]

lemma mk_eq_empty_iff (cs : List Char) : String.mk cs = "" ↔ cs = [] := by
  constructor
  · intro h
    exact congrArg String.data h
  · intro h
    rw [h]

lemma nonEmptyStr_mk (cs : List Char) : nonEmptyStr (String.mk cs) = !cs.isEmpty := by
  by_cases h : cs = []
  · subst h
    decide
  · have h1 : String.mk cs ≠ "" := fun hh => h (congrArg String.data hh)
    have h2 : cs.isEmpty = false := by simpa [List.isEmpty_iff] using h
    simp [nonEmptyStr, h2, h1]

lemma filter_map_mk (l : List (List Char)) :
    (l.map (fun cs => String.mk cs)).filter nonEmptyStr =
      (l.filter (fun cs => !cs.isEmpty)).map (fun cs => String.mk cs) := by
  induction l with
  | nil => rfl
  | cons cs rest ih =>
    rw [List.map_cons, List.filter_cons, List.filter_cons, nonEmptyStr_mk]
    cases h : cs.isEmpty <;> simp [h, ih]

lemma getWords_ne_nil (s : String) : GetWords s ≠ [] := by
  intro h
  exact splitGo_ne_nil (s.data.map Char.toLower) true [] (by simpa [GetWords] using h)

/-- C4 (counterexample): for the input `"!"`, which contains no
alphanumeric characters, `GetWords` does not return an empty sequence: Go's
`regexp.Split` keeps the (empty) pieces on both sides of the separator run,
so the result is `["", ""]`, which also shows the returned tokens are not
all non-empty. -/
theorem getWords_counterexample :
    GetWords "!" = ["", ""] ∧ GetWords "!" ≠ [] := by
  constructor
  · decide
  · intro h
    exact getWords_ne_nil "!" h

/-- C4 (amended): `GetWords s` is `lowercase(s)` split on the maximal runs
of characters outside `[a-z0-9_]`: its non-empty pieces are exactly the
maximal `[a-z0-9_]` runs of `lowercase(s)` in order, but the sequence also
contains an empty piece for each boundary separator run (in particular it
is never the empty sequence — a fully non-alphanumeric input yields
`["", ""]` and the empty string yields `[""]`). -/
theorem getWords_amended (s : String) :
    GetWords s ≠ [] ∧
    (GetWords s).filter nonEmptyStr =
      (maximalRuns (s.data.map Char.toLower)).map (fun cs => String.mk cs) := by
  refine ⟨getWords_ne_nil s, ?_⟩
  rw [GetWords, maximalRuns, filter_map_mk,
    (splitGo_filter (s.data.map Char.toLower)).1 []]

/-- C1: the paged skip of `Query` is off by one. With `Limit = 1` the claim
says page 0 holds the first candidate and page 1 the second; the code skips
only while `matchCount < Limit*Page` (strictly), so pages 0 and 1 both
return the FIRST candidate, and the second candidate appears on page 2
instead. -/
theorem query_page_overlap_eval :
    Query [bookA, bookB] (pagedSpec 1 0) trivialOracle = [bookA] ∧
    Query [bookA, bookB] (pagedSpec 1 1) trivialOracle = [bookA] ∧
    Query [bookA, bookB] (pagedSpec 1 2) trivialOracle = [bookB] := by
  refine ⟨rfl, rfl, rfl⟩

/-- C2: `Update` never clears the ID map, so stale entries survive. After
`Update([a, b])` then `Update([c])`, the map still holds `"a" ↦ 0` and
`"b" ↦ 1`; `Get "a"` returns `(bookC, found = true)` although no current
book has ID `"a"`, and `Get "b"` indexes past the end of the one-element
book slice (a Go panic, modelled as `none`). -/
theorem update_stale_index_eval :
    storeAfterUpdate.books = [bookC] ∧
    storeAfterUpdate.bookIDs.lookup "a" = some 0 ∧
    Get storeAfterUpdate "a" = some (bookC, true) ∧
    bookC.ID ≠ "a" ∧
    Get storeAfterUpdate "b" = none := by
  refine ⟨rfl, rfl, rfl, by decide, rfl⟩

/-- C3: the loader's per-ebook filter loop misplaces the emit. A book whose
first ebook filter rejects it is still emitted once (the `continue` only
skips that filter, and the second filter accepts); a book passing two
filters is emitted twice, the second copy with its file list duplicated —
contradicting both "never emitted when some filter returns false" and
"emitted at most once". -/
theorem load_filter_loop_eval :
    loadFilterLoop [] [fileF] [fun _ => false, fun _ => true] emptyEBook =
      [{ emptyEBook with Files := [fileF] }] ∧
    loadFilterLoop [] [fileF] [fun _ => true, fun _ => true] emptyEBook =
      [{ emptyEBook with Files := [fileF] },
       { emptyEBook with Files := [fileF, fileF] }] := by
  refine ⟨rfl, rfl⟩

/-- C5 (counterexample): with two non-sentinel formats, `BuildFile` keeps
the LAST entry as Format (each loop iteration overwrites it), not the first
as the claim states; the diagnostic does fire. -/
theorem buildFile_counterexample :
    (BuildFile "b" "loc" ["text/plain", "text/html"] 0 "").1.Format = "text/html" ∧
    (BuildFile "b" "loc" ["text/plain", "text/html"] 0 "").1.Format ≠ "text/plain" ∧
    (BuildFile "b" "loc" ["text/plain", "text/html"] 0 "").2 = true := by
  refine ⟨rfl, by decide, rfl⟩

/-- C5 (amended): for a two-entry formats list containing the ZIP sentinel,
the built file has Compression=zip and Format equal to the other entry; a
single non-sentinel entry gives Compression=none, that Format, and no
diagnostic; two non-sentinel entries record a diagnostic and keep the LAST
entry (not the first) as Format. -/
theorem buildFile_formats (id loc : String) (siz : Int) (modified : String)
    (a b : String) (ha : a ≠ "application/zip") (hb : b ≠ "application/zip") :
    ((BuildFile id loc ["application/zip", a] siz modified).1.Comp = CompType.CompZip ∧
     (BuildFile id loc ["application/zip", a] siz modified).1.Format = a) ∧
    ((BuildFile id loc [a, "application/zip"] siz modified).1.Comp = CompType.CompZip ∧
     (BuildFile id loc [a, "application/zip"] siz modified).1.Format = a) ∧
    ((BuildFile id loc [a] siz modified).1.Comp = CompType.CompNone ∧
     (BuildFile id loc [a] siz modified).1.Format = a ∧
     (BuildFile id loc [a] siz modified).2 = false) ∧
    ((BuildFile id loc [a, b] siz modified).1.Comp = CompType.CompNone ∧
     (BuildFile id loc [a, b] siz modified).1.Format = b ∧
     (BuildFile id loc [a, b] siz modified).2 = true) := by
  simp [BuildFile, ha, hb]

/-- Witness for `buildFile_formats` at concrete formats. -/
theorem buildFile_formats_witness :
    ((BuildFile "i" "l" ["application/zip", "text/plain"] 7 "x").1.Comp = CompType.CompZip ∧
     (BuildFile "i" "l" ["application/zip", "text/plain"] 7 "x").1.Format = "text/plain") ∧
    ((BuildFile "i" "l" ["text/plain", "application/zip"] 7 "x").1.Comp = CompType.CompZip ∧
     (BuildFile "i" "l" ["text/plain", "application/zip"] 7 "x").1.Format = "text/plain") ∧
    ((BuildFile "i" "l" ["text/plain"] 7 "x").1.Comp = CompType.CompNone ∧
     (BuildFile "i" "l" ["text/plain"] 7 "x").1.Format = "text/plain" ∧
     (BuildFile "i" "l" ["text/plain"] 7 "x").2 = false) ∧
    ((BuildFile "i" "l" ["text/plain", "text/html"] 7 "x").1.Comp = CompType.CompNone ∧
     (BuildFile "i" "l" ["text/plain", "text/html"] 7 "x").1.Format = "text/html" ∧
     (BuildFile "i" "l" ["text/plain", "text/html"] 7 "x").2 = true) :=
  buildFile_formats "i" "l" 7 "x" "text/plain" "text/html" (by decide) (by decide)

/-- C6: the zero-token bad-request branch of `buildConstraints` is dead
code, and values without alphanumeric characters do not get a 400. The
word extractor never returns zero tokens (Go's `regexp.Split` always
returns at least one piece), and for the parameter `title=!!!` the adapter
splits the value into two empty tokens and successfully builds an
AND-combined constraint instead of returning a bad-request error, contrary
to the claim. -/
theorem buildConstraints_zero_tokens_dead :
    (∀ s : String, GetWords s ≠ []) ∧
    GetWords "!!!" = ["", ""] ∧
    buildConstraintParam "title" "!!!" = Except.ok false := by
  refine ⟨getWords_ne_nil, by decide, by rfl⟩

lemma count_foldl (spec : ConstraintSpec) (l : List EBook) : ∀ n : Nat,
    l.foldl (fun mc bk => if bookMatches spec bk then mc + 1 else mc) n =
      n + (l.filter (fun bk => bookMatches spec bk)).length := by
  induction l with
  | nil => intro n; simp
  | cons bk rest ih =>
    intro n
    by_cases h : bookMatches spec bk <;>
      simp [List.foldl_cons, List.filter_cons, h, ih] <;> omega

lemma queryLoop_length_le (spec : ConstraintSpec) (o : RandOracle) (l : List EBook) :
    ∀ (mc : Nat) (rep : Bool) (res : List EBook), res.length ≤ spec.Limit →
      (queryLoop spec o l mc rep res).length ≤ spec.Limit := by
  induction l with
  | nil => intro mc rep res h; simpa [queryLoop] using h
  | cons bk rest ih =>
    intro mc rep res h
    rw [queryLoop]
    by_cases h1 : spec.Limit ≤ res.length ∧ spec.Random = false
    · rw [if_pos h1]; exact h
    · rw [if_neg h1]
      by_cases hLim : spec.Limit ≤ res.length
      · simp only [if_pos hLim]
        by_cases hm : bookMatches spec bk
        · rw [if_pos hm]
          split_ifs <;> first
            | exact ih _ _ _ (by simpa [List.length_set] using h)
            | exact ih _ _ _ (by simp [List.length_append]; omega)
        · rw [if_neg hm]
          exact ih _ _ _ h
      · simp only [if_neg hLim]
        by_cases hm : bookMatches spec bk
        · rw [if_pos hm]
          split_ifs <;> first
            | exact ih _ _ _ (by simpa [List.length_set] using h)
            | exact ih _ _ _ (by simp [List.length_append]; omega)
        · rw [if_neg hm]
          exact ih _ _ _ h

lemma queryLoop_length_le_count (spec : ConstraintSpec) (o : RandOracle) (l : List EBook) :
    ∀ (mc : Nat) (rep : Bool) (res : List EBook),
      (queryLoop spec o l mc rep res).length ≤
        res.length + (l.filter (fun bk => bookMatches spec bk)).length := by
  induction l with
  | nil => intro mc rep res; simp [queryLoop]
  | cons bk rest ih =>
    intro mc rep res
    rw [queryLoop]
    by_cases h1 : spec.Limit ≤ res.length ∧ spec.Random = false
    · rw [if_pos h1]
      exact Nat.le_add_right _ _
    · rw [if_neg h1]
      by_cases hm : bookMatches spec bk
      · have hf : ((bk :: rest).filter (fun bk => bookMatches spec bk)).length
            = (rest.filter (fun bk => bookMatches spec bk)).length + 1 := by
          simp [List.filter_cons, hm]
        rw [hf, if_pos hm]
        split_ifs <;>
          refine le_trans (ih _ _ _) ?_ <;>
          simp [List.length_set, List.length_append] <;> omega
      · have hf : ((bk :: rest).filter (fun bk => bookMatches spec bk)).length
            = (rest.filter (fun bk => bookMatches spec bk)).length := by
          simp [List.filter_cons, hm]
        rw [hf, if_neg hm]
        exact ih _ _ _

/-- C7: for every ConstraintSpec (any Random/Page), the result of `Query`
has length at most `Limit` and at most `Count`; `Count` equals the number
of books passing the include/exclude candidate test and is independent of
`Limit`, `Page` and `Random`. -/
theorem query_count_bounds (books : List EBook) (spec : ConstraintSpec) (o : RandOracle) :
    (Query books spec o).length ≤ spec.Limit ∧
    (Query books spec o).length ≤ Count books spec ∧
    Count books spec = (books.filter (fun bk =>
      (spec.Includes.isEmpty || spec.IncludeCombiner spec.Includes bk) &&
      (spec.Excludes.isEmpty || !spec.ExcludeCombiner spec.Excludes bk))).length ∧
    (∀ (lim pg : Nat) (rnd : Bool),
      Count books { spec with Limit := lim, Page := pg, Random := rnd } = Count books spec) := by
  have hc : Count books spec = (books.filter (fun bk => bookMatches spec bk)).length := by
    simpa using count_foldl spec books 0
  refine ⟨?_, ?_, hc, ?_⟩
  · exact queryLoop_length_le spec o books 0 false [] (by simp)
  · rw [hc]
    simpa using queryLoop_length_le_count spec o books 0 false []
  · intro lim pg rnd
    rfl

lemma statsFold_spec (l : List EBook) : ∀ (q : ℚ) (sd : StatsData),
    (l.foldl statsStep (q, sd)).1 = q + (l.map (fun b => (b.Words.length : ℚ))).sum ∧
    (l.foldl statsStep (q, sd)).2.TotalBooks = sd.TotalBooks + l.length := by
  induction l with
  | nil => intro q sd; simp
  | cons bk rest ih =>
    intro q sd
    rw [List.foldl_cons]
    constructor
    · rw [(ih _ _).1]
      simp [statsStep]
      ring
    · rw [(ih _ _).2]
      simp [statsStep]
      omega

/-- C10: `Stats` divides the summed word-index sizes by `TotalBooks`
without guarding the empty store: `TotalBooks` is the book count, for a
non-empty store `AvgIndexSize` is the exact arithmetic mean of the
word-index sizes, and for an empty store the division is `0/0`, i.e. NaN
(modelled `none`) rather than 0. -/
theorem stats_avg_nan (books : List EBook) :
    (Stats books).TotalBooks = books.length ∧
    (books = [] → (Stats books).AvgIndexSize = none) ∧
    (books ≠ [] → (Stats books).AvgIndexSize =
      some ((books.map (fun b => (b.Words.length : ℚ))).sum / (books.length : ℚ))) := by
  have h1 := (statsFold_spec books 0 ⟨0, 0, none, [], [], []⟩).1
  have h2 := (statsFold_spec books 0 ⟨0, 0, none, [], [], []⟩).2
  refine ⟨?_, ?_, ?_⟩
  · show (books.foldl statsStep (0, ⟨0, 0, none, [], [], []⟩)).2.TotalBooks = books.length
    rw [h2]
    simp
  · intro h
    subst h
    rfl
  · intro h
    show floatDiv (books.foldl statsStep (0, ⟨0, 0, none, [], [], []⟩)).1
        ((books.foldl statsStep (0, ⟨0, 0, none, [], [], []⟩)).2.TotalBooks : ℚ) = _
    rw [h1, h2]
    have hne : ((0 + books.length : Nat) : ℚ) ≠ 0 := by
      simp [List.length_eq_zero]
      intro hh
      exact h hh
    rw [floatDiv, if_neg hne]
    simp

/-- Witness for `stats_avg_nan`: the empty store yields NaN (`none`), a
one-book store with three indexed words yields mean 3. -/
theorem stats_avg_nan_witness :
    (Stats []).AvgIndexSize = none ∧
    (Stats [bookW]).AvgIndexSize = some 3 := by
  constructor
  · exact (stats_avg_nan []).2.1 rfl
  · have h := (stats_avg_nan [bookW]).2.2 (by simp)
    rw [h]
    norm_num [bookW]

end LFL
